import Mathlib

/-!
Verification development for `nlu_service.py` (marchelxyz/calendar).

The module's single operation `NLUService.extract_event_info` builds a prompt
around the current zoned date-time, sends it to a completion endpoint, decodes
the JSON reply, normalizes the `start_datetime` field and applies defaults.

Shallow embedding choices:
* Python `datetime` objects are modelled by `DT`: a naive wall-clock reading
  (an integer count of seconds of the civil fields) together with an optional
  timezone name; `tz = none` models a naive datetime, `tz = some z` a
  timezone-aware one.  `pytz.timezone(...).localize` attaches the zone name to
  the unchanged wall fields, and `+ timedelta(days=1)` adds one day to the
  wall fields keeping the `tzinfo`, exactly as Python's naive wall arithmetic
  on aware datetimes does.
* The external collaborators (the `openai` client, `json.loads`,
  `dateutil.parser.parse`, `datetime.strftime`, and the system clock read by
  `datetime.now`) are not code of this repository; they are abstracted into an
  environment `Env`.  `datetime.now(self.timezone)` is read twice in the
  source — once while building the prompt (line 26) and once more when the
  date-parse fallback fires (line 99) — so `Env` carries two clock readings
  `wall0` and `wall1`, consumed in that order.
* Raised Python exceptions are modelled by `Except PyExc`; `json.loads`
  returning `none` models it raising `json.JSONDecodeError`, and
  `Env.parse s = none` models `dateutil.parser.parse` raising on input `s`.
* The decoded reply is a Python dict: an association list with unique keys,
  built key-by-key (`toDict`) the way `json.loads` builds its dict, where a
  later duplicate key overwrites the earlier one in place.  Dict values are
  `PyVal`: either a JSON-derived value or a `datetime` object, since line 95
  stores a `datetime` into the dict that held a string.
-/

/-- A Python `datetime`: naive wall-clock seconds plus an optional zone name. -/
structure DT where
  wall : Int
  tz : Option String
deriving DecidableEq, Repr

/-- `pytz` `localize`: attach the zone to an (intended naive) datetime,
keeping the wall-clock fields unchanged (local time, not UTC). -/
def DT.localize (z : String) (d : DT) : DT := ⟨d.wall, some z⟩

/-- `d + timedelta(days = n)`: wall-field arithmetic, `tzinfo` kept. -/
def DT.addDays (d : DT) (n : Int) : DT := ⟨d.wall + n * 86400, d.tz⟩

/-- JSON values as decoded by `json.loads`. -/
inductive JVal where
  | null
  | bool (b : Bool)
  | num (n : Int)
  | str (s : String)
  | arr (xs : List JVal)
  | obj (fields : List (String × JVal))
deriving Repr

/-- A value stored in the result dict: a JSON-derived value or a `datetime`
object (line 95 / line 99 store a `datetime` under `"start_datetime"`). -/
inductive PyVal where
  | j (v : JVal)
  | dt (d : DT)
deriving Repr

/-- The result dict: an insertion-ordered association list. -/
abbrev Record := List (String × PyVal)

/-- `d[k]` lookup (first occurrence; dicts built by `toDict` have unique keys). -/
def dictLookup (d : Record) (k : String) : Option PyVal :=
  match d with
  | [] => none
  | (k', v) :: rest => if k' = k then some v else dictLookup rest k

/-- Python `k in d`. -/
def dictContains (d : Record) (k : String) : Bool :=
  match d with
  | [] => false
  | (k', _) :: rest => k' = k || dictContains rest k

/-- Python `d[k] = v`: overwrite in place if the key exists, else append. -/
def dictSet : Record → String → PyVal → Record
  | [], k, v => [(k, v)]
  | (k', v') :: rest, k, v =>
      if k' = k then (k, v) :: rest else (k', v') :: dictSet rest k v

/-- Python `d.setdefault(k, v)`: insert only when the key is absent. -/
def dictSetdefault (d : Record) (k : String) (v : PyVal) : Record :=
  if dictContains d k then d else d ++ [(k, v)]

/-- Build the dict `json.loads` returns from the decoded object's key/value
pairs in order (a duplicate key overwrites the earlier entry in place). -/
def toDict (fs : List (String × JVal)) : Record :=
  fs.foldl (fun d kv => dictSet d kv.1 (PyVal.j kv.2)) []

/-- Python exceptions, by the classes the `except` clauses of
`extract_event_info` distinguish. -/
inductive PyExc where
  | jsonDecodeError (msg : String)
  | valueError (msg : String)
  | otherError (kind : String) (msg : String)
deriving DecidableEq, Repr

/-- Whether an exception is caught by `except json.JSONDecodeError`. -/
def PyExc.isJsonDecode : PyExc → Bool
  | jsonDecodeError _ => true
  | _ => false

/-- External collaborators of the service: the date parser, the JSON decoder,
`strftime`, the completion endpoint (as a function of the prompt), and the two
successive readings of the system clock (`datetime.now` at prompt-build time
and, if reached, at fallback time). -/
structure Env where
  parse : String → Option DT
  jsonLoads : String → Option JVal
  strftime : DT → String
  llm : String → Except PyExc String
  wall0 : Int
  wall1 : Int

/-- `NLUService._get_current_datetime`: `datetime.now(self.timezone)` — an
aware datetime in the configured zone, from the given clock reading. -/
def get_current_datetime (tzName : String) (wall : Int) : DT := ⟨wall, some tzName⟩

/-- `NLUService._create_prompt` (lines 24-59): the prompt embeds the formatted
first clock reading, the configured timezone name and the user text. -/
def create_prompt (tzName : String) (env : Env) (text : String) : String :=
  let current_datetime := get_current_datetime tzName env.wall0
  let current_date_str := env.strftime current_datetime
  "Ты помощник для создания событий в календаре. Пользователь отправил голосовое сообщение, которое было транскрибировано в текст.\n\nТекущая дата и время: "
    ++ current_date_str ++ " (часовой пояс: " ++ tzName
    ++ ")\n\nТекст пользователя: \"" ++ text
    ++ "\"\n\nТвоя задача - извлечь из текста информацию о событии и вернуть JSON со следующей структурой:\n\x7b\n    \"action\": \"create_event\" | \"delete_event\" | \"update_event\",\n    \"summary\": \"Название события\",\n    \"start_datetime\": \"YYYY-MM-DDTHH:MM:SS\",\n    \"duration_minutes\": 60,\n    \"description\": \"Описание (опционально)\"\n\x7d\n\nПравила:\n1. Если пользователь говорит \"завтра\", \"послезавтра\", \"через 3 дня\" - вычисли правильную дату относительно текущей даты\n2. Если указано время без даты (например, \"в 3 часа дня\"), используй сегодняшнюю дату, если событие еще не прошло, иначе завтрашнюю\n3. Если время не указано, используй 12:00 по умолчанию\n4. Если длительность не указана, используй 60 минут по умолчанию\n5. Если пользователь просит удалить или изменить событие, укажи action соответственно\n6. Всегда возвращай валидный JSON, без дополнительного текста\n\nПримеры:\n- \"Поставь встречу с клиентом на завтра в 15:00\" -> \x7b\"action\": \"create_event\", \"summary\": \"Встреча с клиентом\", \"start_datetime\": \"2025-01-15T15:00:00\", \"duration_minutes\": 60\x7d\n- \"Созвон с командой послезавтра в 10 утра на час\" -> \x7b\"action\": \"create_event\", \"summary\": \"Созвон с командой\", \"start_datetime\": \"2025-01-16T10:00:00\", \"duration_minutes\": 60\x7d\n- \"Напомни мне про презентацию через 2 дня в 14:30\" -> \x7b\"action\": \"create_event\", \"summary\": \"Презентация\", \"start_datetime\": \"2025-01-16T14:30:00\", \"duration_minutes\": 60\x7d\n\nВерни только JSON, без дополнительных комментариев:"

/-- `parser.parse(dt_str)` as invoked on the dict value at `"start_datetime"`
(lines 89-92): on a string it defers to the dateutil parser; on any non-string
value it raises (`none`), which line 96 catches. -/
def tryParseField (env : Env) (v : PyVal) : Option DT :=
  match v with
  | .j (.str s) => env.parse s
  | _ => none

/-- The `ValueError` raised at line 111 when the model reply is not valid
JSON. -/
def userFacingJsonError : PyExc :=
  .valueError "Не удалось обработать запрос. Попробуйте сформулировать иначе."

/-- Lines 88-99: if `"start_datetime"` is in the result, parse it; attach the
configured zone when the parsed value is naive; on any parse failure store
`self._get_current_datetime() + timedelta(days=1)` — a fresh (second) clock
reading. -/
def handle_start (tzName : String) (env : Env) (result : Record) : Record :=
  match tryParseField env ((dictLookup result "start_datetime").getD (.j .null)) with
  | some d =>
      dictSet result "start_datetime"
        (.dt (if d.tz.isSome then d else DT.localize tzName d))
  | none =>
      dictSet result "start_datetime"
        (.dt (DT.addDays (get_current_datetime tzName env.wall1) 1))

/-- Lines 101-104: `result.setdefault` for the three optional fields. -/
def apply_defaults (result : Record) : Record :=
  dictSetdefault
    (dictSetdefault
      (dictSetdefault result "action" (.j (.str "create_event")))
      "duration_minutes" (.j (.num 60)))
    "description" (.j .null)

/-- Lines 88-107: the whole post-decode processing of an object reply. -/
def process_result (tzName : String) (env : Env) (fs : List (String × JVal)) : Record :=
  let result := toDict fs
  let result :=
    if dictContains result "start_datetime" then handle_start tzName env result
    else result
  apply_defaults result

/-- The exception that escapes when `json.loads` yields a non-dict value (a
`TypeError`/`AttributeError` from `"start_datetime" in result` or
`result.setdefault`); it is not a `JSONDecodeError`, so the generic handler at
lines 112-114 re-raises it unchanged. -/
def nonMappingError : PyExc := .otherError "AttributeError" "result is not a mapping"

/-- `NLUService.extract_event_info` (lines 61-114).  The `try` block builds
the prompt, performs the completion call, decodes and processes the reply;
`except json.JSONDecodeError` (line 109) turns any `JSONDecodeError` raised in
the block into `userFacingJsonError`; `except Exception` (line 112) logs and
re-raises every other exception unchanged. -/
def extract_event_info (tzName : String) (env : Env) (text : String) :
    Except PyExc Record :=
  let prompt := create_prompt tzName env text
  match env.llm prompt with
  | .error e => if e.isJsonDecode then .error userFacingJsonError else .error e
  | .ok result_text =>
    match env.jsonLoads result_text with
    | none => .error userFacingJsonError
    | some (.obj fs) => .ok (process_result tzName env fs)
    | some _ => .error nonMappingError

/-! ### Dictionary lemmas -/

theorem dictLookup_dictSet_self (d : Record) (k : String) (v : PyVal) :
    dictLookup (dictSet d k v) k = some v := by
  induction d with
  | nil => simp [dictSet, dictLookup]
  | cons kv rest ih =>
      obtain ⟨k', v'⟩ := kv
      by_cases h : k' = k
      · simp [dictSet, h, dictLookup]
      · simp [dictSet, h, dictLookup, ih]

theorem dictLookup_dictSet_ne (d : Record) (k k2 : String) (v : PyVal)
    (hne : k2 ≠ k) : dictLookup (dictSet d k v) k2 = dictLookup d k2 := by
  have hkk2 : ¬ k = k2 := fun hh => hne hh.symm
  induction d with
  | nil => simp [dictSet, dictLookup, hkk2]
  | cons kv rest ih =>
      obtain ⟨k', v'⟩ := kv
      by_cases h : k' = k
      · subst h
        simp [dictSet, dictLookup, hkk2]
      · simp only [dictSet, if_neg h, dictLookup]
        by_cases h2 : k' = k2 <;> simp [h2, ih]

theorem dictContains_dictSet_ne (d : Record) (k k2 : String) (v : PyVal)
    (hne : k2 ≠ k) : dictContains (dictSet d k v) k2 = dictContains d k2 := by
  have hkk2 : ¬ k = k2 := fun hh => hne hh.symm
  induction d with
  | nil => simp [dictSet, dictContains, hkk2]
  | cons kv rest ih =>
      obtain ⟨k', v'⟩ := kv
      by_cases h : k' = k
      · subst h
        simp [dictSet, dictContains, hkk2]
      · simp only [dictSet, if_neg h, dictContains]
        by_cases h2 : k' = k2 <;> simp [h2, ih]

theorem dictContains_eq_isSome (d : Record) (k : String) :
    dictContains d k = (dictLookup d k).isSome := by
  induction d with
  | nil => simp [dictContains, dictLookup]
  | cons kv rest ih =>
      obtain ⟨k', v'⟩ := kv
      by_cases h : k' = k <;> simp [dictContains, dictLookup, h, ih]

theorem dictLookup_append (d1 d2 : Record) (k : String) :
    dictLookup (d1 ++ d2) k =
      match dictLookup d1 k with
      | some v => some v
      | none => dictLookup d2 k := by
  induction d1 with
  | nil => simp [dictLookup]
  | cons kv rest ih =>
      obtain ⟨k', v'⟩ := kv
      by_cases h : k' = k <;> simp [dictLookup, h, ih]

theorem dictLookup_dictSetdefault_ne (d : Record) (k k2 : String) (v : PyVal)
    (hne : k2 ≠ k) :
    dictLookup (dictSetdefault d k v) k2 = dictLookup d k2 := by
  have hkk2 : ¬ k = k2 := fun hh => hne hh.symm
  unfold dictSetdefault
  by_cases h : dictContains d k
  · simp [h]
  · simp only [h, Bool.false_eq_true, if_false, dictLookup_append]
    cases hl : dictLookup d k2 with
    | some w => simp
    | none => simp [dictLookup, hkk2]

theorem dictLookup_dictSetdefault_self (d : Record) (k : String) (v : PyVal) :
    dictLookup (dictSetdefault d k v) k =
      match dictLookup d k with
      | some w => some w
      | none => some v := by
  unfold dictSetdefault
  rw [dictContains_eq_isSome]
  cases hl : dictLookup d k with
  | some w => simp [hl]
  | none => simp [dictLookup_append, hl, dictLookup]

theorem dictContains_dictSetdefault_ne (d : Record) (k k2 : String) (v : PyVal)
    (hne : k2 ≠ k) :
    dictContains (dictSetdefault d k v) k2 = dictContains d k2 := by
  rw [dictContains_eq_isSome, dictContains_eq_isSome,
    dictLookup_dictSetdefault_ne d k k2 v hne]

/-! ### Characterizations of the processing steps -/

theorem dictLookup_handle_start_ne (tzName : String) (env : Env) (r : Record)
    (k : String) (hne : k ≠ "start_datetime") :
    dictLookup (handle_start tzName env r) k = dictLookup r k := by
  unfold handle_start
  cases tryParseField env ((dictLookup r "start_datetime").getD (.j .null)) with
  | some d => exact dictLookup_dictSet_ne r "start_datetime" k _ hne
  | none => exact dictLookup_dictSet_ne r "start_datetime" k _ hne

theorem dictLookup_handle_start_self (tzName : String) (env : Env) (r : Record) :
    dictLookup (handle_start tzName env r) "start_datetime" =
      some (.dt
        (match tryParseField env ((dictLookup r "start_datetime").getD (.j .null)) with
         | some d => if d.tz.isSome then d else DT.localize tzName d
         | none => DT.addDays (get_current_datetime tzName env.wall1) 1)) := by
  unfold handle_start
  cases tryParseField env ((dictLookup r "start_datetime").getD (.j .null)) with
  | some d => simp [dictLookup_dictSet_self]
  | none => simp [dictLookup_dictSet_self]

theorem dictLookup_apply_defaults_other (r : Record) (k : String)
    (h1 : k ≠ "action") (h2 : k ≠ "duration_minutes") (h3 : k ≠ "description") :
    dictLookup (apply_defaults r) k = dictLookup r k := by
  unfold apply_defaults
  rw [dictLookup_dictSetdefault_ne _ _ _ _ h3,
    dictLookup_dictSetdefault_ne _ _ _ _ h2,
    dictLookup_dictSetdefault_ne _ _ _ _ h1]

theorem dictLookup_apply_defaults_action (r : Record) :
    dictLookup (apply_defaults r) "action" =
      match dictLookup r "action" with
      | some w => some w
      | none => some (.j (.str "create_event")) := by
  unfold apply_defaults
  rw [dictLookup_dictSetdefault_ne _ _ _ _ (by decide),
    dictLookup_dictSetdefault_ne _ _ _ _ (by decide),
    dictLookup_dictSetdefault_self]

theorem dictLookup_apply_defaults_duration (r : Record) :
    dictLookup (apply_defaults r) "duration_minutes" =
      match dictLookup r "duration_minutes" with
      | some w => some w
      | none => some (.j (.num 60)) := by
  unfold apply_defaults
  rw [dictLookup_dictSetdefault_ne _ _ _ _ (by decide),
    dictLookup_dictSetdefault_self,
    dictLookup_dictSetdefault_ne _ _ _ _ (by decide)]

theorem dictLookup_apply_defaults_description (r : Record) :
    dictLookup (apply_defaults r) "description" =
      match dictLookup r "description" with
      | some w => some w
      | none => some (.j .null) := by
  unfold apply_defaults
  rw [dictLookup_dictSetdefault_self,
    dictLookup_dictSetdefault_ne _ _ _ _ (by decide),
    dictLookup_dictSetdefault_ne _ _ _ _ (by decide)]

theorem extract_ok (tzName : String) (env : Env) (text rt : String)
    (fs : List (String × JVal))
    (hllm : env.llm (create_prompt tzName env text) = .ok rt)
    (hjson : env.jsonLoads rt = some (.obj fs)) :
    extract_event_info tzName env text = .ok (process_result tzName env fs) := by
  simp only [extract_event_info, hllm, hjson]

theorem dictLookup_eq_none_of_not_contains (d : Record) (k : String)
    (h : dictContains d k = false) : dictLookup d k = none := by
  rw [dictContains_eq_isSome] at h
  cases hl : dictLookup d k with
  | none => rfl
  | some w => rw [hl] at h; simp at h

theorem process_result_start_absent (tzName : String) (env : Env)
    (fs : List (String × JVal))
    (h : dictContains (toDict fs) "start_datetime" = false) :
    process_result tzName env fs = apply_defaults (toDict fs) := by
  unfold process_result
  simp [h]

theorem process_result_lookup_start_present (tzName : String) (env : Env)
    (fs : List (String × JVal))
    (h : dictContains (toDict fs) "start_datetime" = true) :
    dictLookup (process_result tzName env fs) "start_datetime" =
      some (.dt
        (match tryParseField env
            ((dictLookup (toDict fs) "start_datetime").getD (.j .null)) with
         | some d => if d.tz.isSome then d else DT.localize tzName d
         | none => DT.addDays (get_current_datetime tzName env.wall1) 1)) := by
  unfold process_result
  dsimp only
  rw [if_pos h,
    dictLookup_apply_defaults_other _ _ (by decide) (by decide) (by decide),
    dictLookup_handle_start_self]

theorem process_result_lookup_action (tzName : String) (env : Env)
    (fs : List (String × JVal)) :
    dictLookup (process_result tzName env fs) "action" =
      match dictLookup (toDict fs) "action" with
      | some w => some w
      | none => some (.j (.str "create_event")) := by
  unfold process_result
  dsimp only
  by_cases h : dictContains (toDict fs) "start_datetime" = true
  · rw [if_pos h, dictLookup_apply_defaults_action,
      dictLookup_handle_start_ne _ _ _ _ (by decide)]
  · rw [if_neg h, dictLookup_apply_defaults_action]

theorem process_result_lookup_duration (tzName : String) (env : Env)
    (fs : List (String × JVal)) :
    dictLookup (process_result tzName env fs) "duration_minutes" =
      match dictLookup (toDict fs) "duration_minutes" with
      | some w => some w
      | none => some (.j (.num 60)) := by
  unfold process_result
  dsimp only
  by_cases h : dictContains (toDict fs) "start_datetime" = true
  · rw [if_pos h, dictLookup_apply_defaults_duration,
      dictLookup_handle_start_ne _ _ _ _ (by decide)]
  · rw [if_neg h, dictLookup_apply_defaults_duration]

theorem process_result_lookup_description (tzName : String) (env : Env)
    (fs : List (String × JVal)) :
    dictLookup (process_result tzName env fs) "description" =
      match dictLookup (toDict fs) "description" with
      | some w => some w
      | none => some (.j .null) := by
  unfold process_result
  dsimp only
  by_cases h : dictContains (toDict fs) "start_datetime" = true
  · rw [if_pos h, dictLookup_apply_defaults_description,
      dictLookup_handle_start_ne _ _ _ _ (by decide)]
  · rw [if_neg h, dictLookup_apply_defaults_description]

theorem process_result_lookup_other (tzName : String) (env : Env)
    (fs : List (String × JVal)) (k : String)
    (h1 : k ≠ "start_datetime") (h2 : k ≠ "action")
    (h3 : k ≠ "duration_minutes") (h4 : k ≠ "description") :
    dictLookup (process_result tzName env fs) k = dictLookup (toDict fs) k := by
  unfold process_result
  dsimp only
  by_cases h : dictContains (toDict fs) "start_datetime" = true
  · rw [if_pos h, dictLookup_apply_defaults_other _ _ h2 h3 h4,
      dictLookup_handle_start_ne _ _ _ _ h1]
  · rw [if_neg h, dictLookup_apply_defaults_other _ _ h2 h3 h4]

theorem tryParseField_eq_some (env : Env) (v : PyVal) (d : DT)
    (h : tryParseField env v = some d) :
    ∃ s, v = .j (.str s) ∧ env.parse s = some d := by
  cases v with
  | dt d0 => simp [tryParseField] at h
  | j jv =>
      cases jv with
      | str s => exact ⟨s, rfl, h⟩
      | null => simp [tryParseField] at h
      | bool b => simp [tryParseField] at h
      | num n => simp [tryParseField] at h
      | arr xs => simp [tryParseField] at h
      | obj fs => simp [tryParseField] at h

/-! ### Claims -/

/-- C5: for every model reply that is not valid JSON (the decode step raises),
`extract_event_info` fails with the distinct user-facing "could not process
request, try rephrasing" `ValueError`, which is not the raw JSON parse
exception; the parse detail is hidden from the caller. -/
theorem C5_invalid_json_is_user_error (tzName : String) (env : Env)
    (text rt : String)
    (hllm : env.llm (create_prompt tzName env text) = .ok rt)
    (hjson : env.jsonLoads rt = none) :
    extract_event_info tzName env text = .error userFacingJsonError ∧
      userFacingJsonError =
        .valueError "Не удалось обработать запрос. Попробуйте сформулировать иначе." ∧
      userFacingJsonError.isJsonDecode = false := by
  refine ⟨?_, rfl, rfl⟩
  simp only [extract_event_info, hllm, hjson]

def envW5 : Env :=
  { parse := fun _ => none, jsonLoads := fun _ => none,
    strftime := fun _ => "", llm := fun _ => .ok "это не JSON",
    wall0 := 0, wall1 := 0 }

theorem C5_witness :
    extract_event_info "Europe/Moscow" envW5 "привет" = .error userFacingJsonError ∧
      userFacingJsonError =
        .valueError "Не удалось обработать запрос. Попробуйте сформулировать иначе." ∧
      userFacingJsonError.isJsonDecode = false :=
  C5_invalid_json_is_user_error "Europe/Moscow" envW5 "привет" "это не JSON" rfl rfl

/-- C6: every failure of the completion call itself, as long as it is not a
`json.JSONDecodeError`, is re-raised to the caller unmodified: the result is
the original exception, with no translation into a different error kind. -/
theorem C6_other_failures_reraised (tzName : String) (env : Env) (text : String)
    (e : PyExc)
    (hllm : env.llm (create_prompt tzName env text) = .error e)
    (hkind : e.isJsonDecode = false) :
    extract_event_info tzName env text = .error e := by
  simp only [extract_event_info, hllm, hkind, Bool.false_eq_true, if_false]

def envW6 : Env :=
  { parse := fun _ => none, jsonLoads := fun _ => none,
    strftime := fun _ => "",
    llm := fun _ => .error (.otherError "APIConnectionError" "Connection refused"),
    wall0 := 0, wall1 := 0 }

theorem C6_witness :
    extract_event_info "Europe/Moscow" envW6 "привет" =
      .error (.otherError "APIConnectionError" "Connection refused") :=
  C6_other_failures_reraised "Europe/Moscow" envW6 "привет"
    (.otherError "APIConnectionError" "Connection refused") rfl rfl

def envC3 : Env :=
  { parse := fun _ => none,
    jsonLoads := fun _ => some (.obj [("action", .str "explode_event")]),
    strftime := fun _ => "", llm := fun _ => .ok "{}",
    wall0 := 0, wall1 := 0 }

def recC3 : Record :=
  [("action", .j (.str "explode_event")),
   ("duration_minutes", .j (.num 60)),
   ("description", .j .null)]

/-- C3 counterexample: a reply whose `action` is the unrecognized value
`"explode_event"` is returned with that value kept — `dict.setdefault` fills
only absent keys — so the default does not apply to unrecognized values. -/
theorem C3_counterexample :
    extract_event_info "Europe/Moscow" envC3 "x" = .ok recC3 ∧
      dictLookup recC3 "action" = some (.j (.str "explode_event")) ∧
      "explode_event" ≠ "create_event" :=
  ⟨rfl, rfl, by decide⟩

/-- C3 (amended): the `action` field of the returned record is `create_event`
whenever the reply's `action` field is absent; a present `action` value —
recognized or not — is kept exactly as the model gave it. -/
theorem C3_action_default_only_when_absent (tzName : String) (env : Env)
    (text rt : String) (fs : List (String × JVal))
    (hllm : env.llm (create_prompt tzName env text) = .ok rt)
    (hjson : env.jsonLoads rt = some (.obj fs)) :
    extract_event_info tzName env text = .ok (process_result tzName env fs) ∧
      (dictContains (toDict fs) "action" = false →
        dictLookup (process_result tzName env fs) "action" =
          some (.j (.str "create_event"))) ∧
      (∀ v, dictLookup (toDict fs) "action" = some v →
        dictLookup (process_result tzName env fs) "action" = some v) := by
  refine ⟨extract_ok tzName env text rt fs hllm hjson, ?_, ?_⟩
  · intro habs
    rw [process_result_lookup_action,
      dictLookup_eq_none_of_not_contains _ _ habs]
  · intro v hv
    rw [process_result_lookup_action, hv]

def envW3 : Env :=
  { parse := fun _ => none,
    jsonLoads := fun _ => some (.obj [("summary", .str "Встреча")]),
    strftime := fun _ => "", llm := fun _ => .ok "{}",
    wall0 := 0, wall1 := 0 }

theorem C3_witness :
    dictLookup (process_result "Europe/Moscow" envW3 [("summary", .str "Встреча")])
        "action" = some (.j (.str "create_event")) :=
  (C3_action_default_only_when_absent "Europe/Moscow" envW3 "встреча" "{}"
    [("summary", .str "Встреча")] rfl rfl).2.1 rfl

/-- C7: each of the optional fields is defaulted independently when missing
from the parsed object — `action` becomes `create_event`, `duration_minutes`
becomes `60`, `description` becomes the absent-marker `None` — and a missing
optional field is never an error: the call still returns a record. -/
theorem C7_independent_defaults (tzName : String) (env : Env)
    (text rt : String) (fs : List (String × JVal))
    (hllm : env.llm (create_prompt tzName env text) = .ok rt)
    (hjson : env.jsonLoads rt = some (.obj fs)) :
    extract_event_info tzName env text = .ok (process_result tzName env fs) ∧
      (dictContains (toDict fs) "action" = false →
        dictLookup (process_result tzName env fs) "action" =
          some (.j (.str "create_event"))) ∧
      (dictContains (toDict fs) "duration_minutes" = false →
        dictLookup (process_result tzName env fs) "duration_minutes" =
          some (.j (.num 60))) ∧
      (dictContains (toDict fs) "description" = false →
        dictLookup (process_result tzName env fs) "description" =
          some (.j .null)) := by
  refine ⟨extract_ok tzName env text rt fs hllm hjson, ?_, ?_, ?_⟩
  · intro habs
    rw [process_result_lookup_action,
      dictLookup_eq_none_of_not_contains _ _ habs]
  · intro habs
    rw [process_result_lookup_duration,
      dictLookup_eq_none_of_not_contains _ _ habs]
  · intro habs
    rw [process_result_lookup_description,
      dictLookup_eq_none_of_not_contains _ _ habs]

def envW7 : Env :=
  { parse := fun _ => none,
    jsonLoads := fun _ =>
      some (.obj [("summary", .str "Созвон"), ("action", .str "delete_event")]),
    strftime := fun _ => "", llm := fun _ => .ok "{}",
    wall0 := 0, wall1 := 0 }

theorem C7_witness :
    dictLookup
        (process_result "Europe/Moscow" envW7
          [("summary", .str "Созвон"), ("action", .str "delete_event")])
        "duration_minutes" = some (.j (.num 60)) ∧
      dictLookup
        (process_result "Europe/Moscow" envW7
          [("summary", .str "Созвон"), ("action", .str "delete_event")])
        "description" = some (.j .null) :=
  ⟨(C7_independent_defaults "Europe/Moscow" envW7 "удали созвон" "{}"
      [("summary", .str "Созвон"), ("action", .str "delete_event")] rfl rfl).2.2.1 rfl,
   (C7_independent_defaults "Europe/Moscow" envW7 "удали созвон" "{}"
      [("summary", .str "Созвон"), ("action", .str "delete_event")] rfl rfl).2.2.2 rfl⟩

/-- C8: the defaulting step (`dict.setdefault`) never overwrites a field that
is present with an explicit value, even a falsy one: an explicit `description`
of `null` stays `null`, a `duration_minutes` of `0` stays `0`, and an explicit
`action` value is kept as given. -/
theorem C8_setdefault_never_overwrites (tzName : String) (env : Env)
    (text rt : String) (fs : List (String × JVal))
    (hllm : env.llm (create_prompt tzName env text) = .ok rt)
    (hjson : env.jsonLoads rt = some (.obj fs)) :
    extract_event_info tzName env text = .ok (process_result tzName env fs) ∧
      (∀ v, dictLookup (toDict fs) "action" = some v →
        dictLookup (process_result tzName env fs) "action" = some v) ∧
      (∀ v, dictLookup (toDict fs) "duration_minutes" = some v →
        dictLookup (process_result tzName env fs) "duration_minutes" = some v) ∧
      (∀ v, dictLookup (toDict fs) "description" = some v →
        dictLookup (process_result tzName env fs) "description" = some v) := by
  refine ⟨extract_ok tzName env text rt fs hllm hjson, ?_, ?_, ?_⟩
  · intro v hv
    rw [process_result_lookup_action, hv]
  · intro v hv
    rw [process_result_lookup_duration, hv]
  · intro v hv
    rw [process_result_lookup_description, hv]

def envW8 : Env :=
  { parse := fun _ => none,
    jsonLoads := fun _ =>
      some (.obj [("action", .str "update_event"), ("duration_minutes", .num 0),
                  ("description", .null)]),
    strftime := fun _ => "", llm := fun _ => .ok "{}",
    wall0 := 0, wall1 := 0 }

theorem C8_witness :
    dictLookup
        (process_result "Europe/Moscow" envW8
          [("action", .str "update_event"), ("duration_minutes", .num 0),
           ("description", .null)])
        "action" = some (.j (.str "update_event")) ∧
      dictLookup
        (process_result "Europe/Moscow" envW8
          [("action", .str "update_event"), ("duration_minutes", .num 0),
           ("description", .null)])
        "duration_minutes" = some (.j (.num 0)) ∧
      dictLookup
        (process_result "Europe/Moscow" envW8
          [("action", .str "update_event"), ("duration_minutes", .num 0),
           ("description", .null)])
        "description" = some (.j .null) :=
  ⟨(C8_setdefault_never_overwrites "Europe/Moscow" envW8 "перенеси" "{}"
      [("action", .str "update_event"), ("duration_minutes", .num 0),
       ("description", .null)] rfl rfl).2.1 _ rfl,
   (C8_setdefault_never_overwrites "Europe/Moscow" envW8 "перенеси" "{}"
      [("action", .str "update_event"), ("duration_minutes", .num 0),
       ("description", .null)] rfl rfl).2.2.1 _ rfl,
   (C8_setdefault_never_overwrites "Europe/Moscow" envW8 "перенеси" "{}"
      [("action", .str "update_event"), ("duration_minutes", .num 0),
       ("description", .null)] rfl rfl).2.2.2 _ rfl⟩

/-- C9: a valid-JSON object reply without a `start_datetime` key still
succeeds; the result is exactly the decoded dict with only the three defaults
applied (no date parsing, no fallback substitution), and it contains no
`start_datetime` field at all. -/
theorem C9_absent_start_stays_absent (tzName : String) (env : Env)
    (text rt : String) (fs : List (String × JVal))
    (hllm : env.llm (create_prompt tzName env text) = .ok rt)
    (hjson : env.jsonLoads rt = some (.obj fs))
    (habs : dictContains (toDict fs) "start_datetime" = false) :
    extract_event_info tzName env text = .ok (apply_defaults (toDict fs)) ∧
      dictContains (apply_defaults (toDict fs)) "start_datetime" = false := by
  constructor
  · rw [extract_ok tzName env text rt fs hllm hjson,
      process_result_start_absent tzName env fs habs]
  · unfold apply_defaults
    rw [dictContains_dictSetdefault_ne _ _ _ _ (by decide),
      dictContains_dictSetdefault_ne _ _ _ _ (by decide),
      dictContains_dictSetdefault_ne _ _ _ _ (by decide)]
    exact habs

def envW9 : Env :=
  { parse := fun _ => none,
    jsonLoads := fun _ => some (.obj [("summary", .str "Планёрка")]),
    strftime := fun _ => "", llm := fun _ => .ok "{}",
    wall0 := 0, wall1 := 0 }

theorem C9_witness :
    extract_event_info "Europe/Moscow" envW9 "планёрка" =
        .ok (apply_defaults (toDict [("summary", .str "Планёрка")])) ∧
      dictContains (apply_defaults (toDict [("summary", .str "Планёрка")]))
        "start_datetime" = false :=
  C9_absent_start_stays_absent "Europe/Moscow" envW9 "планёрка" "{}"
    [("summary", .str "Планёрка")] rfl rfl rfl

/-- C10: for every valid-JSON object reply, every field other than
`start_datetime`, `action`, `duration_minutes` and `description` — including
`summary` and any extra field outside the documented schema — is returned
exactly as decoded from the model reply, unchanged and unremoved (and absent
fields, such as a missing `summary`, stay absent without being an error). -/
theorem C10_other_fields_untouched (tzName : String) (env : Env)
    (text rt : String) (fs : List (String × JVal))
    (hllm : env.llm (create_prompt tzName env text) = .ok rt)
    (hjson : env.jsonLoads rt = some (.obj fs)) :
    extract_event_info tzName env text = .ok (process_result tzName env fs) ∧
      ∀ k, k ≠ "start_datetime" → k ≠ "action" → k ≠ "duration_minutes" →
        k ≠ "description" →
        dictLookup (process_result tzName env fs) k = dictLookup (toDict fs) k := by
  refine ⟨extract_ok tzName env text rt fs hllm hjson, ?_⟩
  intro k h1 h2 h3 h4
  exact process_result_lookup_other tzName env fs k h1 h2 h3 h4

def envW10 : Env :=
  { parse := fun _ => none,
    jsonLoads := fun _ =>
      some (.obj [("summary", .str "Обед"), ("location", .str "офис")]),
    strftime := fun _ => "", llm := fun _ => .ok "{}",
    wall0 := 0, wall1 := 0 }

theorem C10_witness :
    dictLookup
        (process_result "Europe/Moscow" envW10
          [("summary", .str "Обед"), ("location", .str "офис")])
        "location" = some (.j (.str "офис")) :=
  ((C10_other_fields_untouched "Europe/Moscow" envW10 "обед в офисе" "{}"
      [("summary", .str "Обед"), ("location", .str "офис")] rfl rfl).2
    "location" (by decide) (by decide) (by decide) (by decide)).trans rfl

/-- C4: when the reply's `start_datetime` parses successfully, the returned
record's `start_datetime` is the parsed `datetime`: kept unchanged if it
already carried timezone information, and otherwise localized — the configured
zone is attached to the unchanged wall-clock value (interpreted as local time,
not UTC) — so the stored instant is always timezone-aware. -/
theorem C4_parse_success_localizes (tzName : String) (env : Env)
    (text rt : String) (fs : List (String × JVal)) (v : PyVal) (d : DT)
    (hllm : env.llm (create_prompt tzName env text) = .ok rt)
    (hjson : env.jsonLoads rt = some (.obj fs))
    (hv : dictLookup (toDict fs) "start_datetime" = some v)
    (hp : tryParseField env v = some d) :
    extract_event_info tzName env text = .ok (process_result tzName env fs) ∧
      dictLookup (process_result tzName env fs) "start_datetime" =
        some (.dt (if d.tz.isSome then d else DT.localize tzName d)) ∧
      DT.localize tzName d = ⟨d.wall, some tzName⟩ ∧
      (if d.tz.isSome then d else DT.localize tzName d).tz.isSome = true := by
  have hc : dictContains (toDict fs) "start_datetime" = true := by
    rw [dictContains_eq_isSome, hv]
    rfl
  refine ⟨extract_ok tzName env text rt fs hllm hjson, ?_, rfl, ?_⟩
  · rw [process_result_lookup_start_present tzName env fs hc, hv]
    simp only [Option.getD_some, hp]
  · cases hd : d.tz with
    | some z => simp [hd]
    | none => simp [hd, DT.localize]

def envW4 : Env :=
  { parse := fun s =>
      if s = "2025-01-15T15:00:00" then some ⟨1736946000, none⟩ else none,
    jsonLoads := fun _ =>
      some (.obj [("summary", .str "Встреча с клиентом"),
                  ("start_datetime", .str "2025-01-15T15:00:00")]),
    strftime := fun _ => "2025-01-14 09:00:00", llm := fun _ => .ok "{}",
    wall0 := 0, wall1 := 0 }

theorem C4_witness :
    dictLookup
        (process_result "Europe/Moscow" envW4
          [("summary", .str "Встреча с клиентом"),
           ("start_datetime", .str "2025-01-15T15:00:00")])
        "start_datetime" =
      some (.dt (if (DT.mk 1736946000 none).tz.isSome then DT.mk 1736946000 none
        else DT.localize "Europe/Moscow" ⟨1736946000, none⟩)) :=
  (C4_parse_success_localizes "Europe/Moscow" envW4
    "Поставь встречу с клиентом на завтра в 15:00" "{}"
    [("summary", .str "Встреча с клиентом"),
     ("start_datetime", .str "2025-01-15T15:00:00")]
    (.j (.str "2025-01-15T15:00:00")) ⟨1736946000, none⟩ rfl rfl rfl rfl).2.1

def envC1 : Env :=
  { parse := fun _ => none,
    jsonLoads := fun _ => some (.obj [("summary", .str "Приём")]),
    strftime := fun _ => "", llm := fun _ => .ok "{}",
    wall0 := 0, wall1 := 0 }

def recC1 : Record :=
  [("summary", .j (.str "Приём")),
   ("action", .j (.str "create_event")),
   ("duration_minutes", .j (.num 60)),
   ("description", .j .null)]

/-- C1 counterexample: a reply accepted by `extract_event_info` whose object
has no `start_datetime` key yields a record with no `start_datetime` field at
all, so the field is not "never absent" in accepted results. -/
theorem C1_counterexample :
    extract_event_info "Europe/Moscow" envC1 "приём" = .ok recC1 ∧
      dictContains recC1 "start_datetime" = false :=
  ⟨rfl, rfl⟩

theorem dictContains_dictSet_self (d : Record) (k : String) (v : PyVal) :
    dictContains (dictSet d k v) k = true := by
  rw [dictContains_eq_isSome, dictLookup_dictSet_self]
  rfl

theorem dictContains_handle_start_self (tzName : String) (env : Env)
    (r : Record) :
    dictContains (handle_start tzName env r) "start_datetime" = true := by
  unfold handle_start
  cases tryParseField env ((dictLookup r "start_datetime").getD (.j .null)) with
  | some d => exact dictContains_dictSet_self r "start_datetime" _
  | none => exact dictContains_dictSet_self r "start_datetime" _

theorem dictContains_apply_defaults_start (r : Record) :
    dictContains (apply_defaults r) "start_datetime" =
      dictContains r "start_datetime" := by
  unfold apply_defaults
  rw [dictContains_dictSetdefault_ne _ _ _ _ (by decide),
    dictContains_dictSetdefault_ne _ _ _ _ (by decide),
    dictContains_dictSetdefault_ne _ _ _ _ (by decide)]

theorem process_result_contains_start (tzName : String) (env : Env)
    (fs : List (String × JVal)) :
    dictContains (process_result tzName env fs) "start_datetime" =
      dictContains (toDict fs) "start_datetime" := by
  unfold process_result
  dsimp only
  by_cases h : dictContains (toDict fs) "start_datetime" = true
  · rw [if_pos h, dictContains_apply_defaults_start,
      dictContains_handle_start_self, h]
  · rw [if_neg h, dictContains_apply_defaults_start]

/-- C1 (amended): every accepted call comes from a reply that decoded to an
object, and its record is that object processed; the record has a
`start_datetime` field exactly when the reply's object had a `start_datetime`
key, and whenever the field is present its value is a timezone-aware
`datetime` — never an unparsed string — either the computed fallback (second
clock reading plus one day) or a value the date parser produced, localized to
the configured zone if it was naive. -/
theorem C1_start_field_invariant (tzName : String) (env : Env) (text : String)
    (r : Record)
    (hok : extract_event_info tzName env text = .ok r) :
    ∃ rt fs,
      env.llm (create_prompt tzName env text) = .ok rt ∧
      env.jsonLoads rt = some (.obj fs) ∧
      r = process_result tzName env fs ∧
      dictContains r "start_datetime" = dictContains (toDict fs) "start_datetime" ∧
      ∀ v, dictLookup r "start_datetime" = some v →
        ∃ d : DT, v = .dt d ∧ d.tz.isSome = true ∧
          (d = DT.addDays (get_current_datetime tzName env.wall1) 1 ∨
           ∃ s d0, env.parse s = some d0 ∧
             d = if d0.tz.isSome then d0 else DT.localize tzName d0) := by
  cases hllm : env.llm (create_prompt tzName env text) with
  | error e =>
      simp only [extract_event_info, hllm] at hok
      split at hok <;> exact Except.noConfusion hok
  | ok rt =>
      cases hjson : env.jsonLoads rt with
      | none =>
          simp only [extract_event_info, hllm, hjson] at hok
          exact Except.noConfusion hok
      | some jv =>
          cases jv with
          | null =>
              simp only [extract_event_info, hllm, hjson] at hok
              exact Except.noConfusion hok
          | bool b =>
              simp only [extract_event_info, hllm, hjson] at hok
              exact Except.noConfusion hok
          | num n =>
              simp only [extract_event_info, hllm, hjson] at hok
              exact Except.noConfusion hok
          | str s =>
              simp only [extract_event_info, hllm, hjson] at hok
              exact Except.noConfusion hok
          | arr xs =>
              simp only [extract_event_info, hllm, hjson] at hok
              exact Except.noConfusion hok
          | obj fs =>
              simp only [extract_event_info, hllm, hjson, Except.ok.injEq] at hok
              subst hok
              refine ⟨rt, fs, rfl, hjson, rfl,
                process_result_contains_start tzName env fs, ?_⟩
              intro v hv
              by_cases hc : dictContains (toDict fs) "start_datetime" = true
              · rw [process_result_lookup_start_present tzName env fs hc] at hv
                cases hparse : tryParseField env
                    ((dictLookup (toDict fs) "start_datetime").getD (.j .null)) with
                | some d0 =>
                    simp only [hparse] at hv
                    injection hv with hv'
                    obtain ⟨s, hs, hps⟩ :=
                      tryParseField_eq_some env _ d0 hparse
                    refine ⟨_, hv'.symm, ?_, Or.inr ⟨s, d0, hps, rfl⟩⟩
                    cases hd : d0.tz with
                    | some z => simp [hd]
                    | none => simp [hd, DT.localize]
                | none =>
                    simp only [hparse] at hv
                    injection hv with hv'
                    exact ⟨_, hv'.symm, rfl, Or.inl rfl⟩
              · have hcf : dictContains (toDict fs) "start_datetime" = false := by
                  simpa using hc
                rw [process_result_start_absent tzName env fs hcf,
                  dictLookup_apply_defaults_other _ _ (by decide) (by decide)
                    (by decide),
                  dictLookup_eq_none_of_not_contains _ _ hcf] at hv
                exact Option.noConfusion hv

def envW1 : Env :=
  { parse := fun _ => none,
    jsonLoads := fun _ => some (.obj [("start_datetime", .str "abc")]),
    strftime := fun _ => "", llm := fun _ => .ok "{}",
    wall0 := 0, wall1 := 100 }

def recW1 : Record :=
  [("start_datetime", .dt ⟨86500, some "Europe/Moscow"⟩),
   ("action", .j (.str "create_event")),
   ("duration_minutes", .j (.num 60)),
   ("description", .j .null)]

theorem C1_witness :
    ∃ rt fs,
      envW1.llm (create_prompt "Europe/Moscow" envW1 "abc") = .ok rt ∧
      envW1.jsonLoads rt = some (.obj fs) ∧
      recW1 = process_result "Europe/Moscow" envW1 fs ∧
      dictContains recW1 "start_datetime" =
        dictContains (toDict fs) "start_datetime" ∧
      ∀ v, dictLookup recW1 "start_datetime" = some v →
        ∃ d : DT, v = .dt d ∧ d.tz.isSome = true ∧
          (d = DT.addDays (get_current_datetime "Europe/Moscow" envW1.wall1) 1 ∨
           ∃ s d0, envW1.parse s = some d0 ∧
             d = if d0.tz.isSome then d0 else DT.localize "Europe/Moscow" d0) :=
  C1_start_field_invariant "Europe/Moscow" envW1 "abc" recW1 rfl

def envC2 : Env :=
  { parse := fun _ => none,
    jsonLoads := fun _ => some (.obj [("start_datetime", .str "not-a-date")]),
    strftime := fun _ => "2025-01-14 09:00:00", llm := fun _ => .ok "{}",
    wall0 := 0, wall1 := 5 }

def recC2 : Record :=
  [("start_datetime", .dt ⟨86405, some "Europe/Moscow"⟩),
   ("action", .j (.str "create_event")),
   ("duration_minutes", .j (.num 60)),
   ("description", .j .null)]

/-- C2 counterexample: when the parse fails, line 99 calls
`_get_current_datetime()` again; with the clock advanced between the
prompt-building reading (`wall0 = 0`) and the fallback reading (`wall1 = 5`),
the stored fallback is the second reading plus one day, which differs from
"the instant embedded in the prompt plus exactly one day". -/
theorem C2_counterexample :
    extract_event_info "Europe/Moscow" envC2 "не дата" = .ok recC2 ∧
      dictLookup recC2 "start_datetime" =
        some (.dt ⟨86405, some "Europe/Moscow"⟩) ∧
      DT.mk 86405 (some "Europe/Moscow") ≠
        DT.addDays (get_current_datetime "Europe/Moscow" envC2.wall0) 1 :=
  ⟨rfl, rfl, by decide⟩

/-- C2 (amended): for every reply whose `start_datetime` is present but fails
to parse, the call still succeeds and the returned `start_datetime` equals a
freshly read current date-time — the second clock reading, taken when the
parse failure is handled, which may differ from the step-1 instant by the call
latency — plus exactly one day, carrying the configured timezone. -/
theorem C2_parse_failure_fallback (tzName : String) (env : Env)
    (text rt : String) (fs : List (String × JVal)) (v : PyVal)
    (hllm : env.llm (create_prompt tzName env text) = .ok rt)
    (hjson : env.jsonLoads rt = some (.obj fs))
    (hv : dictLookup (toDict fs) "start_datetime" = some v)
    (hp : tryParseField env v = none) :
    extract_event_info tzName env text = .ok (process_result tzName env fs) ∧
      dictLookup (process_result tzName env fs) "start_datetime" =
        some (.dt (DT.addDays (get_current_datetime tzName env.wall1) 1)) ∧
      (DT.addDays (get_current_datetime tzName env.wall1) 1).tz = some tzName := by
  have hc : dictContains (toDict fs) "start_datetime" = true := by
    rw [dictContains_eq_isSome, hv]
    rfl
  refine ⟨extract_ok tzName env text rt fs hllm hjson, ?_, rfl⟩
  rw [process_result_lookup_start_present tzName env fs hc, hv]
  simp only [Option.getD_some, hp]

def envW2 : Env :=
  { parse := fun _ => none,
    jsonLoads := fun _ =>
      some (.obj [("start_datetime", .str "завтра вечером")]),
    strftime := fun _ => "2025-01-14 09:00:00", llm := fun _ => .ok "{}",
    wall0 := 3, wall1 := 7 }

theorem C2_witness :
    extract_event_info "Europe/Moscow" envW2 "встреча завтра вечером" =
        .ok (process_result "Europe/Moscow" envW2
          [("start_datetime", .str "завтра вечером")]) ∧
      dictLookup
        (process_result "Europe/Moscow" envW2
          [("start_datetime", .str "завтра вечером")]) "start_datetime" =
        some (.dt (DT.addDays (get_current_datetime "Europe/Moscow" envW2.wall1) 1)) ∧
      (DT.addDays (get_current_datetime "Europe/Moscow" envW2.wall1) 1).tz =
        some "Europe/Moscow" :=
  C2_parse_failure_fallback "Europe/Moscow" envW2 "встреча завтра вечером" "{}"
    [("start_datetime", .str "завтра вечером")]
    (.j (.str "завтра вечером")) rfl rfl rfl rfl
